import Mathlib

/-!
Verification model of the matchmaking / duel-session handler
(backend/api/matchmaking/handler.go).

The Go file is a WebSocket handler: `MatchmakingHandler` pairs two clients
into a `Room`, `handleGameSession` drives up to five quiz rounds
(question broadcast, answer-right race on a one-slot channel, answer
collection with deadline, score bookkeeping), `determineWinner` and
`updatePlayerRatings` finish the duel.

The embedding below makes the environment explicit:
  * the database is a count plus a stream of draws (`SessionEnv.draws`
    models the successive results of the `ORDER BY RAND() LIMIT 1` query);
  * each round takes an oracle (`RoundEnv`) fixing which WriteJSON calls
    fail and how the answer-right race resolved;
  * the answer-right race itself (`handleAnswerRequest` goroutines plus
    the buffered channel of capacity one) is additionally given a
    small-step interleaving semantics (`raceStep` / `raceRun`) so that
    claims about the race are quantified over every schedule;
  * the outer `MatchmakingHandler` control flow is modelled as the list
    of actions each branch executes (`joinerBranch` / `creatorBranch`),
    with the empty `select` statement of the joiner branch rendered as a
    blocking action that stops execution.
Messages record every WriteJSON attempt together with a success flag;
a flag only influences control flow where the Go code inspects the error.
-/

/-- The `Question` row scanned in `handleGameSession`
(id, question_text, correct_answer, choice1..choice4). -/
structure Question where
  id : Nat
  questionText : String
  correctAnswer : String
  choice1 : String
  choice2 : String
  choice3 : String
  choice4 : String
deriving DecidableEq

/-- The JSON envelopes the handler writes to a player connection.
`gameEnd` carries the winner object exactly as `determineWinner` builds it:
a Go `map[string]string`, modelled as an association list. -/
inductive Msg where
  | gameStart
  | question (q : Question)
  | answerRightsGranted (playerId : String)
  | answerDenied
  | answerResult (correct : Bool) (answer : String) (correctAnswer : String)
  | scoreUpdate (player1Score player2Score : Nat)
  | roundTimeout
  | gameEnd (player1Id : String) (player1Score : Nat)
      (player2Id : String) (player2Score : Nat) (winner : List (String × String))
deriving DecidableEq

def Msg.isScoreUpdate : Msg → Bool
  | .scoreUpdate _ _ => true
  | _ => false

def Msg.isCorrectResult : Msg → Bool
  | .answerResult b _ _ => b
  | _ => false

def Msg.isAnswerResultMsg : Msg → Bool
  | .answerResult _ _ _ => true
  | _ => false

def Msg.isGrantMsg : Msg → Bool
  | .answerRightsGranted _ => true
  | _ => false

/-- `determineWinner` (handler.go lines 428-446): returns the Go map
written into the `winner` field of the final result. -/
def determineWinner (player1ID player2ID : String) (score1 score2 : Nat) :
    List (String × String) :=
  if score1 > score2 then
    [("id", player1ID), ("loser_id", player2ID), ("message", "Player 1の勝利！")]
  else if score2 > score1 then
    [("id", player2ID), ("loser_id", player1ID), ("message", "Player 2の勝利！")]
  else
    [("id", "draw"), ("message", "引き分け")]

/-- Reading a key out of a Go `map[string]string`: a missing key yields the
zero value `""` (this is what line 292-293 relies on for `loser_id` in the
draw case). -/
def goMapGet (m : List (String × String)) (k : String) : String :=
  (List.lookup k m).getD ""

/-- `updatePlayerRatings` (handler.go lines 449-479): for a draw sentinel
winner id it returns without contacting the rating service; otherwise it
issues one rating request carrying (winnerID, loserID).  The model returns
the request issued, if any. -/
def updatePlayerRatings (winnerID loserID : String) : Option (String × String) :=
  if winnerID = "draw" then none else some (winnerID, loserID)

/-- `handlePlayerAnswer` (handler.go lines 338-394), reduced to its data
flow: the orchestrator reads one answer payload from the winning player's
connection only.  `some a` is an answer arriving before the 5 second
deadline; `none` covers the deadline elapsing (including the case where
the read on the winner's connection failed, since then nothing is ever
sent on `answerChan`).  Returns the `answer_result` message written to
both connections and the boolean handed back to the caller. -/
def handlePlayerAnswer (correctAnswer : String) (answer : Option String) :
    Msg × Bool :=
  match answer with
  | some a => (.answerResult (a == correctAnswer) a correctAnswer, a == correctAnswer)
  | none => (.answerResult false "時間切れ" correctAnswer, false)

/-- Resolution of one round's answer-right race as observed by the
`select` in `handleGameSession`: either the 10 second timer fired, or the
channel yielded the id of the player whose `answer_request` was first
(`winnerIsPlayer1` tells which side), together with the answer oracle
passed on to `handlePlayerAnswer`. -/
inductive RoundRace where
  | raceTimeout
  | claim (winnerIsPlayer1 : Bool) (answer : Option String)
deriving DecidableEq

/-- Per-round environment: which of the control-flow-relevant WriteJSON
calls fail (question broadcast aborts the session on error; the
answer-rights notification only logs its error), and how the race ended. -/
structure RoundEnv where
  qFail1 : Bool
  qFail2 : Bool
  grantFail1 : Bool
  grantFail2 : Bool
  race : RoundRace
deriving DecidableEq

/-- Everything one round wrote and decided.  `msgs1` / `msgs2` list every
WriteJSON attempt to player 1 / player 2 in program order, paired with
whether the write succeeded; `inc1` / `inc2` say whose score the round
incremented. -/
structure RoundLog where
  q : Question
  env : RoundEnv
  msgs1 : List (Msg × Bool)
  msgs2 : List (Msg × Bool)
  inc1 : Bool
  inc2 : Bool
deriving DecidableEq

inductive RoundOut where
  | aborted (log : RoundLog)
  | completed (log : RoundLog)
deriving DecidableEq

def RoundOut.isAborted : RoundOut → Bool
  | .aborted _ => true
  | .completed _ => false

def RoundOut.log : RoundOut → RoundLog
  | .aborted l => l
  | .completed l => l

/-- One iteration of the round loop of `handleGameSession`
(handler.go lines 161-270), for an already drawn question `q` and current
scores.  Follows the source order: question to player 1 (error → return),
question to player 2 (error → return), race; on a claim, notify both of
the granted right (errors only logged), collect the answer, and on a
correct answer bump the winner's score and broadcast the score update;
on a race timeout broadcast `timeout` to both. -/
def runRound (player1ID player2ID : String) (q : Question)
    (score1 score2 : Nat) (env : RoundEnv) : RoundOut :=
  let qm1 : Msg × Bool := (.question q, !env.qFail1)
  if env.qFail1 then .aborted ⟨q, env, [qm1], [], false, false⟩
  else
    let qm2 : Msg × Bool := (.question q, !env.qFail2)
    if env.qFail2 then .aborted ⟨q, env, [qm1], [qm2], false, false⟩
    else
      match env.race with
      | .raceTimeout =>
          .completed ⟨q, env, [qm1, (.roundTimeout, true)],
            [qm2, (.roundTimeout, true)], false, false⟩
      | .claim isP1 ans =>
          let pid := if isP1 then player1ID else player2ID
          let g1 : Msg × Bool := (.answerRightsGranted pid, !env.grantFail1)
          let g2 : Msg × Bool := (.answerRightsGranted pid, !env.grantFail2)
          let res := handlePlayerAnswer q.correctAnswer ans
          let wIsP1 := pid == player1ID
          if res.2 then
            let s1 := if wIsP1 then score1 + 1 else score1
            let s2 := if wIsP1 then score2 else score2 + 1
            .completed ⟨q, env,
              [qm1, g1, (res.1, true), (.scoreUpdate s1 s2, true)],
              [qm2, g2, (res.1, true), (.scoreUpdate s1 s2, true)],
              wIsP1, !wIsP1⟩
          else
            .completed ⟨q, env, [qm1, g1, (res.1, true)],
              [qm2, g2, (res.1, true)], false, false⟩

/-- The inner draw-retry loop of `handleGameSession` (lines 163-189):
repeatedly query a uniformly random question and discard it when its id
was already used.  The stream of query results is a list; the loop
terminates on the first unused question and `none` models a draw stream
that never produces one (in the source, the `for` loop then never
exits by the unused-question branch). -/
def drawUnused : List Question → List Nat → Option (Question × List Question)
  | [], _ => none
  | q :: rest, used =>
      if q.id ∈ used then drawUnused rest used else some (q, rest)

inductive SessionResult where
  | abortCount
  | abortStart
  | abortQuestion
  | abortDraw
  | finished
deriving DecidableEq

/-- Full observable behaviour of one `handleGameSession` run.  `pre1` /
`pre2` are the game_start attempts, `rounds` the per-round logs in order,
`post1` / `post2` the final-result writes, `issued` the question ids
entered into `usedQuestionIDs` in order, `rating` the rating request
issued at the end, if any. -/
structure SessionRun where
  pre1 : List (Msg × Bool)
  pre2 : List (Msg × Bool)
  rounds : List RoundLog
  post1 : List Msg
  post2 : List Msg
  issued : List Nat
  score1 : Nat
  score2 : Nat
  rating : Option (String × String)
  result : SessionResult
deriving DecidableEq

/-- Environment of one session: the `SELECT COUNT(*)` result (and whether
that query failed), whether the two game_start writes fail, the draw
stream, and the per-round oracles. -/
structure SessionEnv where
  totalQuestions : Nat
  countFail : Bool
  gsFail1 : Bool
  gsFail2 : Bool
  draws : List Question
  rounds : Nat → RoundEnv

/-- The round loop plus final-result block of `handleGameSession`
(lines 161-294), structurally recursive on the number of rounds still to
play.  On loop exit the final result is broadcast to both players and
`updatePlayerRatings` is called with the winner map's `id` and
`loser_id` entries (the latter read as `""` for a draw). -/
def sessionLoop (player1ID player2ID : String) (renv : Nat → RoundEnv) :
    Nat → Nat → List Question → List Nat → Nat → Nat → List RoundLog → SessionRun
  | 0, _, _, used, s1, s2, acc =>
      let winner := determineWinner player1ID player2ID s1 s2
      let fin : Msg := .gameEnd player1ID s1 player2ID s2 winner
      ⟨[], [], acc, [fin], [fin], used, s1, s2,
        updatePlayerRatings (goMapGet winner "id") (goMapGet winner "loser_id"),
        .finished⟩
  | n + 1, idx, draws, used, s1, s2, acc =>
      match drawUnused draws used with
      | none => ⟨[], [], acc, [], [], used, s1, s2, none, .abortDraw⟩
      | some (q, rest) =>
          let used' := used ++ [q.id]
          match runRound player1ID player2ID q s1 s2 (renv idx) with
          | .aborted log =>
              ⟨[], [], acc ++ [log], [], [], used', s1, s2, none, .abortQuestion⟩
          | .completed log =>
              sessionLoop player1ID player2ID renv n (idx + 1) rest used'
                (if log.inc1 then s1 + 1 else s1)
                (if log.inc2 then s2 + 1 else s2)
                (acc ++ [log])

/-- `handleGameSession` (handler.go lines 127-294): count query (error →
return), game_start to both (error → return), then
`questionsPerGame = min 5 totalQuestions` rounds. -/
def runSession (player1ID player2ID : String) (env : SessionEnv) : SessionRun :=
  if env.countFail then
    ⟨[], [], [], [], [], [], 0, 0, none, .abortCount⟩
  else
    let gs1 : Msg × Bool := (.gameStart, !env.gsFail1)
    if env.gsFail1 then
      ⟨[gs1], [], [], [], [], [], 0, 0, none, .abortStart⟩
    else
      let gs2 : Msg × Bool := (.gameStart, !env.gsFail2)
      if env.gsFail2 then
        ⟨[gs1], [gs2], [], [], [], [], 0, 0, none, .abortStart⟩
      else
        let base := sessionLoop player1ID player2ID env.rounds
          (min 5 env.totalQuestions) 0 env.draws [] 0 0 []
        { base with pre1 := [gs1], pre2 := [gs2] }

/-- A JSON value, as far as the wire format of a question needs. -/
inductive JVal where
  | jstr (s : String)
  | jnum (n : Nat)
  | jarr (xs : List String)
deriving DecidableEq

/-- Modelled from the spec: the JSON object that `WriteJSON` produces for
the `question` field of the question message.  The Go `Question` struct
declaration (with its JSON field tags) is not part of the source under
review, so its serialization follows the spec's interface table:
question messages carry id, text and the four choices and the correct
answer is never included. -/
def wireQuestion (q : Question) : List (String × JVal) :=
  [("id", .jnum q.id), ("text", .jstr q.questionText),
   ("choices", .jarr [q.choice1, q.choice2, q.choice3, q.choice4])]

/-- A message read from one player's WebSocket inside
`handleAnswerRequest`: an `answer_request`, some other JSON object, or a
read error (on which the goroutine returns). -/
inductive ClientMsg where
  | answerRequest
  | other
  | recvErr
deriving DecidableEq

/-- Joint state of one round's answer-right race: the buffered channel of
capacity one (`slot`), the unread inputs of the two
`handleAnswerRequest` goroutines, whether each goroutine has returned,
how many `answer_denied` messages each side was sent, the ordered list of
player ids whose channel send succeeded, and the outcome of the
orchestrator's `select` (`none` while still blocked, `some (some pid)`
after receiving, `some none` after the 10 second timer). -/
structure RaceSt where
  slot : Option String
  inA : List ClientMsg
  inB : List ClientMsg
  doneA : Bool
  doneB : Bool
  deniedA : Nat
  deniedB : Nat
  claims : List String
  got : Option (Option String)
deriving DecidableEq

def raceInit (inA inB : List ClientMsg) : RaceSt :=
  ⟨none, inA, inB, false, false, 0, 0, [], none⟩

/-- Scheduler events: one step of either goroutine, the orchestrator
receiving from the channel, or its timer firing. -/
inductive Evt where
  | stepA
  | stepB
  | mainRecv
  | mainTimeout
deriving DecidableEq

/-- One interleaving step.  A goroutine step follows `handleAnswerRequest`
(lines 296-336): read a message; on error return; on `answer_request` try
the non-blocking send `answerRights <- playerID` — if the buffer has
room the send succeeds and the goroutine returns, otherwise it writes
`answer_denied` and keeps listening.  The orchestrator's receive drains
the buffer; its timer may fire whenever the select has not completed. -/
def raceStep (pidA pidB : String) (s : RaceSt) : Evt → RaceSt
  | .stepA =>
      if s.doneA then s
      else
        match s.inA with
        | [] => s
        | .other :: rest => { s with inA := rest }
        | .recvErr :: rest => { s with inA := rest, doneA := true }
        | .answerRequest :: rest =>
            match s.slot with
            | none =>
                { s with inA := rest, slot := some pidA, claims := s.claims ++ [pidA], doneA := true }
            | some _ => { s with inA := rest, deniedA := s.deniedA + 1 }
  | .stepB =>
      if s.doneB then s
      else
        match s.inB with
        | [] => s
        | .other :: rest => { s with inB := rest }
        | .recvErr :: rest => { s with inB := rest, doneB := true }
        | .answerRequest :: rest =>
            match s.slot with
            | none =>
                { s with inB := rest, slot := some pidB, claims := s.claims ++ [pidB], doneB := true }
            | some _ => { s with inB := rest, deniedB := s.deniedB + 1 }
  | .mainRecv =>
      match s.got, s.slot with
      | none, some w => { s with got := some (some w), slot := none }
      | _, _ => s
  | .mainTimeout =>
      match s.got with
      | none => { s with got := some none }
      | some _ => s

/-- Run the race under a given interleaving. -/
def raceRun (pidA pidB : String) (inA inB : List ClientMsg)
    (sched : List Evt) : RaceSt :=
  sched.foldl (raceStep pidA pidB) (raceInit inA inB)

def gotList : Option (Option String) → List String
  | some (some w) => [w]
  | _ => []

/-- Invariant of the race state: the successful sends are exactly what the
orchestrator consumed followed by what still sits in the buffer; every
claimant is one of the two players; a goroutine that has not returned has
not claimed; each side claims at most once; and a denial to one side
means the other side's claim succeeded earlier. -/
def RaceInv (pidA pidB : String) (s : RaceSt) : Prop :=
  s.claims = gotList s.got ++ s.slot.toList
  ∧ (∀ x ∈ s.claims, x = pidA ∨ x = pidB)
  ∧ (s.doneA = false → pidA ∉ s.claims)
  ∧ (s.doneB = false → pidB ∉ s.claims)
  ∧ s.claims.count pidA ≤ 1
  ∧ s.claims.count pidB ≤ 1
  ∧ (1 ≤ s.deniedA → pidB ∈ s.claims)
  ∧ (1 ≤ s.deniedB → pidA ∈ s.claims)

/-- Actions the `MatchmakingHandler` function executes after the pairing
decision (handler.go lines 74-120): the joiner branch writes `matched` to
both sides, then enters `select {}`; the creator branch writes `waiting`,
waits for a match and, when matched, starts the game session. -/
inductive HAction where
  | writeMatchedP1
  | writeMatchedP2
  | blockSelect
  | runSessionAct
  | writeWaiting
  | waitMatchAct
deriving DecidableEq

/-- The joiner branch of `MatchmakingHandler` (lines 74-95), as written:
notify both players, `select {}`, and only then (unreachably) the call to
`handleGameSession`. -/
def joinerBranch : List HAction :=
  [.writeMatchedP1, .writeMatchedP2, .blockSelect, .runSessionAct]

/-- The creator branch (lines 97-120) in the case where `waitForMatch`
observes the match: notify `waiting`, wait, then run the session. -/
def creatorBranchMatched : List HAction :=
  [.writeWaiting, .waitMatchAct, .runSessionAct]

/-- Execution of an action list: `blockSelect` is `select {}`, which
never returns, so nothing after it executes. -/
def execPrefix : List HAction → List HAction
  | [] => []
  | .blockSelect :: _ => [.blockSelect]
  | a :: rest => a :: execPrefix rest

/-- Condition under which `handleGameSession` judged an answer this round
and judged it correct: the race was claimed and the collected answer
matched `correct_answer`. -/
def RoundEnv.judgedCorrect (env : RoundEnv) (q : Question) : Bool :=
  match env.race with
  | .claim _ (some a) => a == q.correctAnswer
  | _ => false

/-- Sample questions for concrete runs. -/
def qA : Question := ⟨1, "t1", "a1", "c1", "c2", "c3", "c4"⟩

def qB : Question := ⟨2, "t2", "a2", "c1", "c2", "c3", "c4"⟩

def qC : Question := ⟨3, "t3", "a3", "c1", "c2", "c3", "c4"⟩

/-- A round in which nobody requests the answer right. -/
def reTimeout : RoundEnv := ⟨false, false, false, false, .raceTimeout⟩

/-- Three questions available, every round times out. -/
def envTO : SessionEnv := ⟨3, false, false, false, [qA, qB, qC], fun _ => reTimeout⟩

/-- One question; player 1 claims the right and answers correctly. -/
def envC1 : SessionEnv :=
  ⟨1, false, false, false, [qA], fun _ => ⟨false, false, false, false, .claim true (some "a1")⟩⟩

/-- One question; player 1 claims the right and answers incorrectly. -/
def envC3 : SessionEnv :=
  ⟨1, false, false, false, [qA], fun _ => ⟨false, false, false, false, .claim true (some "wrong")⟩⟩

/-- The question source reports zero available questions. -/
def envC4 : SessionEnv := ⟨0, false, false, false, [], fun _ => reTimeout⟩

/-- One question, player 1 claims and answers correctly; used with the
player-1 id set to the literal string "draw". -/
def envC7 : SessionEnv :=
  ⟨1, false, false, false, [qA], fun _ => ⟨false, false, false, false, .claim true (some "a1")⟩⟩

/-- One question; the answer-rights-granted write to player 1 fails while
player 1 claims and answers correctly. -/
def envC8 : SessionEnv :=
  ⟨1, false, false, false, [qA], fun _ => ⟨false, false, true, false, .claim true (some "a1")⟩⟩

/-- Placeholder round log, used only as the default of `List.headD` when
naming the first recorded round of a concrete run. -/
def defLog : RoundLog := ⟨qA, reTimeout, [], [], false, false⟩

/-- Score-update discipline of one recorded round: a score_update is sent
to a side exactly when that side also saw an answer_result judged correct;
the round increments a score exactly under the same condition, and the
incremented side is the answering player — the one whose id the round's
answer_rights_granted message names, compared against the player-1 id
exactly as the `playerID == room.PlayerID` branch of handler.go lines
242-246 does; and in a fault-free round the score_update presence
coincides with the race oracle judging the claimed answer correct, while
a race timeout broadcasts the round timeout to both sides and no
answer_result at all. -/
def scoreProp (player1ID : String) (l : RoundLog) : Prop :=
  ((l.msgs1.map Prod.fst).any Msg.isScoreUpdate)
      = ((l.msgs1.map Prod.fst).any Msg.isCorrectResult)
  ∧ ((l.msgs2.map Prod.fst).any Msg.isScoreUpdate)
      = ((l.msgs2.map Prod.fst).any Msg.isCorrectResult)
  ∧ ((l.inc1 || l.inc2) = ((l.msgs1.map Prod.fst).any Msg.isCorrectResult))
  ∧ (∀ pid, Msg.answerRightsGranted pid ∈ l.msgs1.map Prod.fst →
      l.inc1 = (((l.msgs1.map Prod.fst).any Msg.isCorrectResult)
          && (pid == player1ID))
      ∧ l.inc2 = (((l.msgs1.map Prod.fst).any Msg.isCorrectResult)
          && !(pid == player1ID)))
  ∧ (l.env.qFail1 = false → l.env.qFail2 = false →
      ((l.msgs1.map Prod.fst).any Msg.isScoreUpdate) = l.env.judgedCorrect l.q
      ∧ (l.env.race = .raceTimeout →
          ((l.msgs1.map Prod.fst).any Msg.isAnswerResultMsg) = false
          ∧ Msg.roundTimeout ∈ l.msgs1.map Prod.fst
          ∧ Msg.roundTimeout ∈ l.msgs2.map Prod.fst))

/-- Question-broadcast discipline of one recorded round: the first write
to player 1 is the question message of the round's drawn question, the
first write to player 2 (when one was attempted) likewise, and the wire
form of that question consists of exactly the id, text and choices
fields — no correct-answer field. -/
def questionProp (l : RoundLog) : Prop :=
  (l.msgs1.map Prod.fst).head? = some (.question l.q)
  ∧ (l.msgs2 ≠ [] → (l.msgs2.map Prod.fst).head? = some (.question l.q))
  ∧ (wireQuestion l.q).map Prod.fst = ["id", "text", "choices"]
  ∧ "correct_answer" ∉ (wireQuestion l.q).map Prod.fst
  ∧ List.lookup "id" (wireQuestion l.q) = some (.jnum l.q.id)
  ∧ List.lookup "text" (wireQuestion l.q) = some (.jstr l.q.questionText)
  ∧ List.lookup "choices" (wireQuestion l.q)
      = some (.jarr [l.q.choice1, l.q.choice2, l.q.choice3, l.q.choice4])

/-- Grant discipline of one recorded round: each side is sent at most one
answer_rights_granted message, and any granted message names one of the
two players of the room. -/
def grantProp (p1 p2 : String) (l : RoundLog) : Prop :=
  ((l.msgs1.map Prod.fst).countP Msg.isGrantMsg) ≤ 1
  ∧ ((l.msgs2.map Prod.fst).countP Msg.isGrantMsg) ≤ 1
  ∧ (∀ pid, Msg.answerRightsGranted pid ∈ l.msgs1.map Prod.fst →
      pid = p1 ∨ pid = p2)
  ∧ (∀ pid, Msg.answerRightsGranted pid ∈ l.msgs2.map Prod.fst →
      pid = p1 ∨ pid = p2)

/-- Claim C2: in the pairing where a newcomer joins an existing waiting
room, the spec requires both participants to proceed deterministically to
session start.  The source instead has the joining side execute an empty
select statement right after the matched notification, so the joiner
blocks forever and never reaches `handleGameSession`; only the room
creator (whose branch passes through `waitForMatch`) starts the session.
This theorem evaluates the modelled control flow: the joiner branch
writes both matched notifications, reaches the blocking select, and never
executes the session start, while the creator branch does. -/
theorem claim2_joiner_stalls :
    HAction.runSessionAct ∉ execPrefix joinerBranch
    ∧ HAction.blockSelect ∈ execPrefix joinerBranch
    ∧ HAction.writeMatchedP1 ∈ execPrefix joinerBranch
    ∧ HAction.writeMatchedP2 ∈ execPrefix joinerBranch
    ∧ HAction.runSessionAct ∈ execPrefix creatorBranchMatched := by
  decide

/-- Claim C10: the question-draw retry loop discards already used draws
and terminates with an unused question, provided the draw sequence
eventually yields one: if some question in the draw stream has an id
outside the used set, `drawUnused` returns a question whose id is not in
the used set. -/
theorem claim10_draw_terminates (draws : List Question) (used : List Nat)
    (h : ∃ q ∈ draws, q.id ∉ used) :
    ∃ q rest, drawUnused draws used = some (q, rest) ∧ q.id ∉ used := by
  induction draws with
  | nil => simp at h
  | cons q0 rest ih =>
      by_cases hm : q0.id ∈ used
      · have h' : ∃ q ∈ rest, q.id ∉ used := by
          rcases h with ⟨q, hq, hnot⟩
          rcases List.mem_cons.mp hq with rfl | hq'
          · exact absurd hm hnot
          · exact ⟨q, hq', hnot⟩
        rcases ih h' with ⟨q, r, heq, hnot⟩
        exact ⟨q, r, by simpa [drawUnused, hm] using heq, hnot⟩
      · exact ⟨q0, rest, by simp [drawUnused, hm], hm⟩

/-- Witness for C10 at a concrete draw stream. -/
theorem claim10_draw_terminates_witness :
    ∃ q rest, drawUnused [qA] [] = some (q, rest) ∧ q.id ∉ ([] : List Nat) :=
  claim10_draw_terminates [qA] [] (by decide)

/-- Claim C4 counterexample: with zero available questions the session
does not abort: it runs zero rounds but still broadcasts game_start and a
game_end result (a 0-0 draw), contradicting the claim that the session
fails before round 1 and produces no game_end. -/
theorem claim4_counterexample :
    (runSession "alice" "bob" envC4).result = SessionResult.finished
    ∧ (runSession "alice" "bob" envC4).rounds = []
    ∧ (runSession "alice" "bob" envC4).post1 =
        [Msg.gameEnd "alice" 0 "bob" 0 [("id", "draw"), ("message", "引き分け")]]
    ∧ (runSession "alice" "bob" envC4).pre1 = [(Msg.gameStart, true)] := by
  decide

/-- Claim C4 amended: if the question source reports zero availability,
no rounds are run, but the session is not fatal: it proceeds straight to
the final block and broadcasts a game_end with a 0-0 draw to both
players, with no rating update. -/
theorem claim4_amended (p1 p2 : String) (env : SessionEnv)
    (h0 : env.totalQuestions = 0) (hc : env.countFail = false)
    (h1 : env.gsFail1 = false) (h2 : env.gsFail2 = false) :
    (runSession p1 p2 env).rounds = []
    ∧ (runSession p1 p2 env).result = SessionResult.finished
    ∧ (runSession p1 p2 env).post1 =
        [Msg.gameEnd p1 0 p2 0 [("id", "draw"), ("message", "引き分け")]]
    ∧ (runSession p1 p2 env).post2 =
        [Msg.gameEnd p1 0 p2 0 [("id", "draw"), ("message", "引き分け")]]
    ∧ (runSession p1 p2 env).rating = none := by
  simp [runSession, hc, h1, h2, h0, sessionLoop, determineWinner, goMapGet,
    updatePlayerRatings]

/-- Witness for C4 amended at a concrete environment. -/
theorem claim4_amended_witness :
    (runSession "p" "q" envC4).rounds = []
    ∧ (runSession "p" "q" envC4).result = SessionResult.finished
    ∧ (runSession "p" "q" envC4).post1 =
        [Msg.gameEnd "p" 0 "q" 0 [("id", "draw"), ("message", "引き分け")]]
    ∧ (runSession "p" "q" envC4).post2 =
        [Msg.gameEnd "p" 0 "q" 0 [("id", "draw"), ("message", "引き分け")]]
    ∧ (runSession "p" "q" envC4).rating = none :=
  claim4_amended "p" "q" envC4 (by decide) (by decide) (by decide) (by decide)

/-- Claim C1 counterexample: `handleGameSession` broadcasts the
answer_rights_granted notification to both connections (handler.go lines
230-235), so in a round where player 1 claims the right, both endpoints
receive an answer_rights_granted message for that round — not at most
one endpoint. -/
theorem claim1_counterexample :
    Msg.answerRightsGranted "alice" ∈
      (((runSession "alice" "bob" envC1).rounds.map RoundLog.msgs1).flatten.map Prod.fst)
    ∧ Msg.answerRightsGranted "alice" ∈
      (((runSession "alice" "bob" envC1).rounds.map RoundLog.msgs2).flatten.map Prod.fst)
    ∧ (runSession "alice" "bob" envC1).rounds.length = 1 := by
  decide

/-- Claim C3 counterexample: in a round whose claimed answer is judged
incorrect, an answer_result is broadcast (the answer was judged) but no
score_update is sent — `handleGameSession` only sends score_update inside
`if answered`, and `answered` is the correctness verdict.  This refutes
the claim that a score_update is broadcast whenever the claimed answer
was judged, correct or incorrect. -/
theorem claim3_counterexample :
    ((((runSession "alice" "bob" envC3).rounds.map RoundLog.msgs1).flatten.map
        Prod.fst).any Msg.isAnswerResultMsg) = true
    ∧ ((((runSession "alice" "bob" envC3).rounds.map RoundLog.msgs1).flatten.map
        Prod.fst).any Msg.isScoreUpdate) = false
    ∧ ((((runSession "alice" "bob" envC3).rounds.map RoundLog.msgs2).flatten.map
        Prod.fst).any Msg.isScoreUpdate) = false
    ∧ (runSession "alice" "bob" envC3).result = SessionResult.finished := by
  decide

/-- Claim C7 counterexample: `updatePlayerRatings` uses the winner-id
string "draw" as its draw sentinel, so when the player whose id is the
literal string "draw" wins 1-0 the outcome is a non-draw (the winner map
names a loser), yet no rating request is issued — refuting the claim
that every non-draw outcome invokes the rating-update collaborator. -/
theorem claim7_counterexample :
    (runSession "draw" "bob" envC7).score1 = 1
    ∧ (runSession "draw" "bob" envC7).score2 = 0
    ∧ goMapGet (determineWinner "draw" "bob" 1 0) "loser_id" = "bob"
    ∧ (runSession "draw" "bob" envC7).result = SessionResult.finished
    ∧ (runSession "draw" "bob" envC7).rating = none := by
  decide

/-- Claim C8 counterexample: the write of the answer_rights_granted
notification to player 1 fails, yet the session does not abort: the
round still collects the answer, broadcasts the score update, and the
session runs to completion with a game_end — refuting the claim that any
send failure during a round is fatal and aborts immediately. -/
theorem claim8_counterexample :
    (runSession "alice" "bob" envC8).result = SessionResult.finished
    ∧ (Msg.answerRightsGranted "alice", false) ∈
        ((runSession "alice" "bob" envC8).rounds.map RoundLog.msgs1).flatten
    ∧ ((((runSession "alice" "bob" envC8).rounds.map RoundLog.msgs1).flatten.map
        Prod.fst).any Msg.isScoreUpdate) = true
    ∧ (runSession "alice" "bob" envC8).post1 ≠ [] := by
  decide

/-- Every round log the session loop ever records comes from `runRound`:
if a property holds of the log of every possible `runRound` outcome, it
holds of every recorded round. -/
theorem sessionLoop_rounds_sat (p1 p2 : String) (renv : Nat → RoundEnv)
    (P : RoundLog → Prop)
    (hP : ∀ q s1 s2 env, P ((runRound p1 p2 q s1 s2 env).log)) :
    ∀ n idx draws used s1 s2 acc, (∀ l ∈ acc, P l) →
      ∀ l ∈ (sessionLoop p1 p2 renv n idx draws used s1 s2 acc).rounds, P l := by
  intro n
  induction n with
  | zero =>
      intro idx draws used s1 s2 acc hacc l hl
      simp only [sessionLoop] at hl
      exact hacc l hl
  | succ n ih =>
      intro idx draws used s1 s2 acc hacc l hl
      simp only [sessionLoop] at hl
      cases hdraw : drawUnused draws used with
      | none =>
          rw [hdraw] at hl
          exact hacc l hl
      | some pr =>
          obtain ⟨q, rest⟩ := pr
          rw [hdraw] at hl
          dsimp only at hl
          cases hr : runRound p1 p2 q s1 s2 (renv idx) with
          | aborted log =>
              rw [hr] at hl
              simp only [List.mem_append, List.mem_singleton] at hl
              rcases hl with hl | rfl
              · exact hacc l hl
              · have := hP q s1 s2 (renv idx)
                rw [hr] at this
                exact this
          | completed log =>
              rw [hr] at hl
              refine ih (idx + 1) rest (used ++ [q.id])
                (if log.inc1 then s1 + 1 else s1)
                (if log.inc2 then s2 + 1 else s2) (acc ++ [log]) ?_ l hl
              intro l' hl'
              rcases List.mem_append.mp hl' with h' | h'
              · exact hacc l' h'
              · have := hP q s1 s2 (renv idx)
                rw [hr] at this
                simpa using List.mem_singleton.mp h' ▸ this

/-- Lift `sessionLoop_rounds_sat` through `runSession`. -/
theorem runSession_rounds_sat (p1 p2 : String) (P : RoundLog → Prop)
    (hP : ∀ q s1 s2 env, P ((runRound p1 p2 q s1 s2 env).log))
    (env : SessionEnv) : ∀ l ∈ (runSession p1 p2 env).rounds, P l := by
  intro l hl
  unfold runSession at hl
  by_cases hc : env.countFail
  · simp [hc] at hl
  · by_cases h1 : env.gsFail1
    · simp [hc, h1] at hl
    · by_cases h2 : env.gsFail2
      · simp [hc, h1, h2] at hl
      · simp only [hc, h1, h2, if_false, Bool.false_eq_true] at hl
        exact sessionLoop_rounds_sat p1 p2 env.rounds P hP
          (min 5 env.totalQuestions) 0 env.draws [] 0 0 [] (by simp) l hl

/-- Every possible `runRound` outcome obeys the score-update discipline. -/
theorem runRound_scoreProp (p1 p2 : String) (q : Question) (s1 s2 : Nat)
    (env : RoundEnv) : scoreProp p1 ((runRound p1 p2 q s1 s2 env).log) := by
  obtain ⟨f1, f2, g1, g2, race⟩ := env
  cases f1 with
  | true =>
      simp [runRound, RoundOut.log, scoreProp, RoundEnv.judgedCorrect,
        Msg.isScoreUpdate, Msg.isCorrectResult]
  | false =>
      cases f2 with
      | true =>
          simp [runRound, RoundOut.log, scoreProp, RoundEnv.judgedCorrect,
            Msg.isScoreUpdate, Msg.isCorrectResult]
      | false =>
          cases race with
          | raceTimeout =>
              simp [runRound, RoundOut.log, scoreProp, RoundEnv.judgedCorrect,
                Msg.isScoreUpdate, Msg.isCorrectResult, Msg.isAnswerResultMsg]
          | claim isP1 ans =>
              cases ans with
              | none =>
                  simp [runRound, RoundOut.log, scoreProp, RoundEnv.judgedCorrect,
                    handlePlayerAnswer, Msg.isScoreUpdate, Msg.isCorrectResult,
                    Msg.isAnswerResultMsg]
              | some a =>
                  cases h : (a == q.correctAnswer) <;>
                    simp [runRound, RoundOut.log, scoreProp, RoundEnv.judgedCorrect,
                      handlePlayerAnswer, h, Msg.isScoreUpdate, Msg.isCorrectResult,
                      Msg.isAnswerResultMsg]

/-- Claim C3 amended: within every session, a round broadcasts a
score_update to a side exactly when that side was also sent an
answer_result judged correct — a claimed answer judged incorrect sends the
answer_result but no score_update; the increment goes to the answering
player: in a round whose answer_rights_granted message names pid, player
1's score is incremented exactly when the answer was judged correct and
pid equals the player-1 id, and player 2's score exactly when it was
judged correct and pid does not; in a fault-free round the score_update
presence equals the race oracle's correctness verdict, and a race
timeout broadcasts the round timeout to both sides with no answer_result
and no score_update. -/
theorem claim3_amended (p1 p2 : String) (env : SessionEnv) :
    ∀ l ∈ (runSession p1 p2 env).rounds, scoreProp p1 l :=
  runSession_rounds_sat p1 p2 (scoreProp p1) (runRound_scoreProp p1 p2) env

/-- Witness for C3 amended: the score discipline of the first round of a
concrete session in which player 1 answers correctly. -/
theorem claim3_amended_witness :
    scoreProp "alice" (((runSession "alice" "bob" envC1).rounds).headD defLog) :=
  claim3_amended "alice" "bob" envC1
    (((runSession "alice" "bob" envC1).rounds).headD defLog) (by decide)

/-- Every possible `runRound` outcome obeys the question-broadcast
discipline. -/
theorem runRound_questionProp (p1 p2 : String) (q : Question) (s1 s2 : Nat)
    (env : RoundEnv) : questionProp ((runRound p1 p2 q s1 s2 env).log) := by
  obtain ⟨f1, f2, g1, g2, race⟩ := env
  cases f1 with
  | true => simp [runRound, RoundOut.log, questionProp, wireQuestion, List.lookup]
  | false =>
      cases f2 with
      | true => simp [runRound, RoundOut.log, questionProp, wireQuestion, List.lookup]
      | false =>
          cases race with
          | raceTimeout =>
              simp [runRound, RoundOut.log, questionProp, wireQuestion, List.lookup]
          | claim isP1 ans =>
              cases ans with
              | none =>
                  simp [runRound, RoundOut.log, questionProp, wireQuestion,
                    handlePlayerAnswer, List.lookup]
              | some a =>
                  cases h : (a == q.correctAnswer) <;>
                    simp [runRound, RoundOut.log, questionProp, wireQuestion,
                      handlePlayerAnswer, h, List.lookup]

/-- Claim C6: in every session, each round opens by broadcasting the
question message of the round's drawn question to both endpoints, and
the wire form of the question consists of exactly the id, the text and
the four choices — there is no correct-answer field.  (The wire form
`wireQuestion` is modelled from the spec, since the Go `Question` struct
declaration with its JSON tags is outside the source under review.) -/
theorem claim6_question_broadcast (p1 p2 : String) (env : SessionEnv) :
    ∀ l ∈ (runSession p1 p2 env).rounds, questionProp l :=
  runSession_rounds_sat p1 p2 questionProp (runRound_questionProp p1 p2) env

/-- Witness for C6 on the first round of a concrete session. -/
theorem claim6_question_broadcast_witness :
    questionProp (((runSession "alice" "bob" envTO).rounds).headD defLog) :=
  claim6_question_broadcast "alice" "bob" envTO
    (((runSession "alice" "bob" envTO).rounds).headD defLog) (by decide)

/-- A question returned by the draw-retry loop is never one of the used
ids. -/
theorem drawUnused_not_mem :
    ∀ (draws : List Question) (used : List Nat) (q : Question)
      (rest : List Question),
      drawUnused draws used = some (q, rest) → q.id ∉ used := by
  intro draws
  induction draws with
  | nil => intro used q rest h; simp [drawUnused] at h
  | cons q0 tl ih =>
      intro used q rest h
      by_cases hm : q0.id ∈ used
      · exact ih used q rest (by simpa [drawUnused, hm] using h)
      · simp [drawUnused, hm] at h
        obtain ⟨rfl, -⟩ := h
        exact hm

/-- The ids the session loop accumulates stay duplicate-free. -/
theorem sessionLoop_issued_nodup (p1 p2 : String) (renv : Nat → RoundEnv) :
    ∀ (n idx : Nat) (draws : List Question) (used : List Nat) (s1 s2 : Nat)
      (acc : List RoundLog), used.Nodup →
      ((sessionLoop p1 p2 renv n idx draws used s1 s2 acc).issued).Nodup := by
  intro n
  induction n with
  | zero => intro idx draws used s1 s2 acc hu; simpa [sessionLoop] using hu
  | succ n ih =>
      intro idx draws used s1 s2 acc hu
      simp only [sessionLoop]
      cases hdraw : drawUnused draws used with
      | none => simpa using hu
      | some pr =>
          obtain ⟨q, rest⟩ := pr
          have hnot : q.id ∉ used := drawUnused_not_mem draws used q rest hdraw
          have hu' : (used ++ [q.id]).Nodup := by
            simp [List.nodup_append, hu]
            exact hnot
          dsimp only
          cases hr : runRound p1 p2 q s1 s2 (renv idx) with
          | aborted log => simpa using hu'
          | completed log => exact ih (idx + 1) rest (used ++ [q.id]) _ _ _ hu'

/-- When the session loop finishes normally it has issued exactly one new
question id per remaining round. -/
theorem sessionLoop_issued_len (p1 p2 : String) (renv : Nat → RoundEnv) :
    ∀ (n idx : Nat) (draws : List Question) (used : List Nat) (s1 s2 : Nat)
      (acc : List RoundLog),
      (sessionLoop p1 p2 renv n idx draws used s1 s2 acc).result =
        SessionResult.finished →
      ((sessionLoop p1 p2 renv n idx draws used s1 s2 acc).issued).length =
        used.length + n := by
  intro n
  induction n with
  | zero => intro idx draws used s1 s2 acc _; simp [sessionLoop]
  | succ n ih =>
      intro idx draws used s1 s2 acc hfin
      simp only [sessionLoop] at hfin ⊢
      cases hdraw : drawUnused draws used with
      | none => rw [hdraw] at hfin; simp at hfin
      | some pr =>
          obtain ⟨q, rest⟩ := pr
          rw [hdraw] at hfin
          dsimp only at hfin ⊢
          cases hr : runRound p1 p2 q s1 s2 (renv idx) with
          | aborted log =>
              rw [hr] at hfin
              dsimp only at hfin
              simp at hfin
          | completed log =>
              rw [hr] at hfin
              dsimp only at hfin ⊢
              have := ih (idx + 1) rest (used ++ [q.id])
                (if log.inc1 then s1 + 1 else s1)
                (if log.inc2 then s2 + 1 else s2) (acc ++ [log]) hfin
              rw [this]
              simp
              omega

/-- Claim C5: within a single duel the sequence of issued question ids
has no duplicates, and when the session runs to completion the number of
issued questions (= rounds played) equals min 5 totalQuestions, the count
reported by the question source at session start. -/
theorem claim5_question_ids (p1 p2 : String) (env : SessionEnv) :
    ((runSession p1 p2 env).issued).Nodup
    ∧ ((runSession p1 p2 env).result = SessionResult.finished →
        ((runSession p1 p2 env).issued).length = min 5 env.totalQuestions) := by
  unfold runSession
  by_cases hc : env.countFail
  · simp [hc]
  · by_cases h1 : env.gsFail1
    · simp [hc, h1]
    · by_cases h2 : env.gsFail2
      · simp [hc, h1, h2]
      · simp only [hc, h1, h2, if_false, Bool.false_eq_true]
        constructor
        · exact sessionLoop_issued_nodup p1 p2 env.rounds
            (min 5 env.totalQuestions) 0 env.draws [] 0 0 [] (by simp)
        · intro hfin
          have := sessionLoop_issued_len p1 p2 env.rounds
            (min 5 env.totalQuestions) 0 env.draws [] 0 0 [] hfin
          simpa using this

/-- Witness for C5: three questions available, all rounds run, exactly
min 5 3 = 3 distinct ids issued. -/
theorem claim5_question_ids_witness :
    ((runSession "alice" "bob" envTO).issued).Nodup
    ∧ ((runSession "alice" "bob" envTO).issued).length = min 5 (3 : Nat) :=
  ⟨(claim5_question_ids "alice" "bob" envTO).1,
    (claim5_question_ids "alice" "bob" envTO).2 (by decide)⟩

/-- When the session loop finishes normally, the final block broadcasts
exactly one game_end to each side carrying both final scores and the
`determineWinner` map, and the rating call is made on that map's id and
loser_id entries. -/
theorem sessionLoop_final (p1 p2 : String) (renv : Nat → RoundEnv) :
    ∀ (n idx : Nat) (draws : List Question) (used : List Nat) (s1 s2 : Nat)
      (acc : List RoundLog),
      (sessionLoop p1 p2 renv n idx draws used s1 s2 acc).result =
        SessionResult.finished →
      (sessionLoop p1 p2 renv n idx draws used s1 s2 acc).post1 =
        [Msg.gameEnd p1 (sessionLoop p1 p2 renv n idx draws used s1 s2 acc).score1
          p2 (sessionLoop p1 p2 renv n idx draws used s1 s2 acc).score2
          (determineWinner p1 p2
            (sessionLoop p1 p2 renv n idx draws used s1 s2 acc).score1
            (sessionLoop p1 p2 renv n idx draws used s1 s2 acc).score2)]
      ∧ (sessionLoop p1 p2 renv n idx draws used s1 s2 acc).post2 =
          (sessionLoop p1 p2 renv n idx draws used s1 s2 acc).post1
      ∧ (sessionLoop p1 p2 renv n idx draws used s1 s2 acc).rating =
          updatePlayerRatings
            (goMapGet (determineWinner p1 p2
              (sessionLoop p1 p2 renv n idx draws used s1 s2 acc).score1
              (sessionLoop p1 p2 renv n idx draws used s1 s2 acc).score2) "id")
            (goMapGet (determineWinner p1 p2
              (sessionLoop p1 p2 renv n idx draws used s1 s2 acc).score1
              (sessionLoop p1 p2 renv n idx draws used s1 s2 acc).score2) "loser_id") := by
  intro n
  induction n with
  | zero => intro idx draws used s1 s2 acc _; simp [sessionLoop]
  | succ n ih =>
      intro idx draws used s1 s2 acc hfin
      simp only [sessionLoop] at hfin ⊢
      cases hdraw : drawUnused draws used with
      | none => rw [hdraw] at hfin; simp at hfin
      | some pr =>
          obtain ⟨q, rest⟩ := pr
          rw [hdraw] at hfin
          dsimp only at hfin ⊢
          cases hr : runRound p1 p2 q s1 s2 (renv idx) with
          | aborted log =>
              rw [hr] at hfin
              dsimp only at hfin
              simp at hfin
          | completed log =>
              rw [hr] at hfin
              dsimp only at hfin ⊢
              exact ih (idx + 1) rest (used ++ [q.id])
                (if log.inc1 then s1 + 1 else s1)
                (if log.inc2 then s2 + 1 else s2) (acc ++ [log]) hfin

/-- Equal scores produce the draw map: winner id is the sentinel "draw",
no loser_id entry exists, and the rating call is skipped. -/
theorem determineWinner_draw (p1 p2 : String) (s : Nat) :
    goMapGet (determineWinner p1 p2 s s) "id" = "draw"
    ∧ List.lookup "loser_id" (determineWinner p1 p2 s s) = none
    ∧ updatePlayerRatings (goMapGet (determineWinner p1 p2 s s) "id")
        (goMapGet (determineWinner p1 p2 s s) "loser_id") = none := by
  simp [determineWinner, goMapGet, updatePlayerRatings, List.lookup]

/-- A strictly higher player-1 score names player 1 as winner and player 2
as loser, and (unless player 1 is literally named "draw") issues the
rating request (p1, p2). -/
theorem determineWinner_p1wins (p1 p2 : String) (s1 s2 : Nat) (h : s1 > s2) :
    goMapGet (determineWinner p1 p2 s1 s2) "id" = p1
    ∧ goMapGet (determineWinner p1 p2 s1 s2) "loser_id" = p2
    ∧ (p1 ≠ "draw" →
        updatePlayerRatings (goMapGet (determineWinner p1 p2 s1 s2) "id")
          (goMapGet (determineWinner p1 p2 s1 s2) "loser_id") = some (p1, p2)) := by
  refine ⟨?_, ?_, ?_⟩
  · simp [determineWinner, h, goMapGet, List.lookup]
  · simp [determineWinner, h, goMapGet, List.lookup]
  · intro hne
    simp [determineWinner, h, goMapGet, List.lookup, updatePlayerRatings, hne]

/-- A strictly higher player-2 score names player 2 as winner and player 1
as loser, and (unless player 2 is literally named "draw") issues the
rating request (p2, p1). -/
theorem determineWinner_p2wins (p1 p2 : String) (s1 s2 : Nat) (h : s2 > s1) :
    goMapGet (determineWinner p1 p2 s1 s2) "id" = p2
    ∧ goMapGet (determineWinner p1 p2 s1 s2) "loser_id" = p1
    ∧ (p2 ≠ "draw" →
        updatePlayerRatings (goMapGet (determineWinner p1 p2 s1 s2) "id")
          (goMapGet (determineWinner p1 p2 s1 s2) "loser_id") = some (p2, p1)) := by
  have h' : ¬ s1 > s2 := by omega
  refine ⟨?_, ?_, ?_⟩
  · simp [determineWinner, h, h', goMapGet, List.lookup]
  · simp [determineWinner, h, h', goMapGet, List.lookup]
  · intro hne
    simp [determineWinner, h, h', goMapGet, List.lookup, updatePlayerRatings, hne]

/-- Claim C7 amended: the outcome is a deterministic function of the
final scores — the game_end broadcast to both endpoints carries both
scores and the `determineWinner` map, equal scores give the draw map
(winner id "draw", no loser_id) and never trigger a rating update, and a
strictly higher score names that player winner and the other loser and
invokes the rating collaborator with (winnerId, loserId) — provided the
winning player's id is not the literal string "draw", which the code
cannot distinguish from its draw sentinel. -/
theorem claim7_outcome (p1 p2 : String) (env : SessionEnv)
    (hf : (runSession p1 p2 env).result = SessionResult.finished) :
    (runSession p1 p2 env).post1 =
      [Msg.gameEnd p1 (runSession p1 p2 env).score1 p2
        (runSession p1 p2 env).score2
        (determineWinner p1 p2 (runSession p1 p2 env).score1
          (runSession p1 p2 env).score2)]
    ∧ (runSession p1 p2 env).post2 = (runSession p1 p2 env).post1
    ∧ ((runSession p1 p2 env).score1 = (runSession p1 p2 env).score2 →
        goMapGet (determineWinner p1 p2 (runSession p1 p2 env).score1
          (runSession p1 p2 env).score2) "id" = "draw"
        ∧ List.lookup "loser_id" (determineWinner p1 p2
            (runSession p1 p2 env).score1 (runSession p1 p2 env).score2) = none
        ∧ (runSession p1 p2 env).rating = none)
    ∧ ((runSession p1 p2 env).score1 > (runSession p1 p2 env).score2 →
        goMapGet (determineWinner p1 p2 (runSession p1 p2 env).score1
          (runSession p1 p2 env).score2) "id" = p1
        ∧ goMapGet (determineWinner p1 p2 (runSession p1 p2 env).score1
            (runSession p1 p2 env).score2) "loser_id" = p2
        ∧ (p1 ≠ "draw" → (runSession p1 p2 env).rating = some (p1, p2)))
    ∧ ((runSession p1 p2 env).score2 > (runSession p1 p2 env).score1 →
        goMapGet (determineWinner p1 p2 (runSession p1 p2 env).score1
          (runSession p1 p2 env).score2) "id" = p2
        ∧ goMapGet (determineWinner p1 p2 (runSession p1 p2 env).score1
            (runSession p1 p2 env).score2) "loser_id" = p1
        ∧ (p2 ≠ "draw" → (runSession p1 p2 env).rating = some (p2, p1))) := by
  by_cases hc : env.countFail
  · simp [runSession, hc] at hf
  · by_cases h1 : env.gsFail1
    · simp [runSession, hc, h1] at hf
    · by_cases h2 : env.gsFail2
      · simp [runSession, hc, h1, h2] at hf
      · have hf' : (sessionLoop p1 p2 env.rounds (min 5 env.totalQuestions) 0
            env.draws [] 0 0 []).result = SessionResult.finished := by
          simpa [runSession, hc, h1, h2] using hf
        have hbase := sessionLoop_final p1 p2 env.rounds
          (min 5 env.totalQuestions) 0 env.draws [] 0 0 [] hf'
        obtain ⟨hp1, hp2, hrat⟩ := hbase
        have e1 : (runSession p1 p2 env).post1 = (sessionLoop p1 p2 env.rounds
            (min 5 env.totalQuestions) 0 env.draws [] 0 0 []).post1 := by
          simp [runSession, hc, h1, h2]
        have e2 : (runSession p1 p2 env).post2 = (sessionLoop p1 p2 env.rounds
            (min 5 env.totalQuestions) 0 env.draws [] 0 0 []).post2 := by
          simp [runSession, hc, h1, h2]
        have e3 : (runSession p1 p2 env).score1 = (sessionLoop p1 p2 env.rounds
            (min 5 env.totalQuestions) 0 env.draws [] 0 0 []).score1 := by
          simp [runSession, hc, h1, h2]
        have e4 : (runSession p1 p2 env).score2 = (sessionLoop p1 p2 env.rounds
            (min 5 env.totalQuestions) 0 env.draws [] 0 0 []).score2 := by
          simp [runSession, hc, h1, h2]
        have e5 : (runSession p1 p2 env).rating = (sessionLoop p1 p2 env.rounds
            (min 5 env.totalQuestions) 0 env.draws [] 0 0 []).rating := by
          simp [runSession, hc, h1, h2]
        refine ⟨?_, ?_, ?_, ?_, ?_⟩
        · rw [e1, e3, e4, hp1]
        · rw [e1, e2, hp2]
        · intro heq
          rw [e3, e4] at heq
          have hd := determineWinner_draw p1 p2
            ((sessionLoop p1 p2 env.rounds (min 5 env.totalQuestions) 0
              env.draws [] 0 0 []).score2)
          rw [e3, e4, heq]
          refine ⟨hd.1, hd.2.1, ?_⟩
          rw [e5, hrat, heq]
          exact hd.2.2
        · intro hgt
          rw [e3, e4] at hgt
          have hw := determineWinner_p1wins p1 p2 _ _ hgt
          rw [e3, e4]
          refine ⟨hw.1, hw.2.1, ?_⟩
          intro hne
          rw [e5, hrat]
          exact hw.2.2 hne
        · intro hgt
          rw [e3, e4] at hgt
          have hw := determineWinner_p2wins p1 p2 _ _ hgt
          rw [e3, e4]
          refine ⟨hw.1, hw.2.1, ?_⟩
          intro hne
          rw [e5, hrat]
          exact hw.2.2 hne

/-- Witness for C7 amended on a concrete finished session with score 1-0:
player 1 is named winner, player 2 loser, and the rating request is
(p1, p2). -/
theorem claim7_outcome_witness :
    goMapGet (determineWinner "alice" "bob" (runSession "alice" "bob" envC7).score1
      (runSession "alice" "bob" envC7).score2) "id" = "alice"
    ∧ (runSession "alice" "bob" envC7).rating = some ("alice", "bob") := by
  have h := (claim7_outcome "alice" "bob" envC7 (by decide)).2.2.2.1 (by decide)
  exact ⟨h.1, h.2.2 (by decide)⟩

/-- Claim C8 amended: only send failures of the game_start and per-round
question broadcasts abort the session.  A failed question write (to
either side) aborts the round loop, and a failed game_start write aborts
before any round; but no other failure is fatal — in particular a round
whose question writes succeed never aborts, whatever the race outcome,
whatever the answer (including a winner-side receive failure, which
surfaces as the answer deadline elapsing), and whether or not the
answer-rights-granted writes fail. -/
theorem claim8_failure_policy (p1 p2 : String) (q : Question) (s1 s2 : Nat)
    (env : RoundEnv) :
    ((env.qFail1 = true ∨ env.qFail2 = true) →
        (runRound p1 p2 q s1 s2 env).isAborted = true)
    ∧ (env.qFail1 = false → env.qFail2 = false →
        (runRound p1 p2 q s1 s2 env).isAborted = false)
    ∧ (∀ senv : SessionEnv, senv.countFail = false → senv.gsFail1 = true →
        (runSession p1 p2 senv).result = SessionResult.abortStart
        ∧ (runSession p1 p2 senv).rounds = [])
    ∧ (∀ senv : SessionEnv, senv.countFail = false → senv.gsFail1 = false →
        senv.gsFail2 = true →
        (runSession p1 p2 senv).result = SessionResult.abortStart
        ∧ (runSession p1 p2 senv).rounds = []) := by
  refine ⟨?_, ?_, ?_, ?_⟩
  · intro h
    obtain ⟨f1, f2, g1, g2, race⟩ := env
    rcases h with h | h <;> subst h
    · simp [runRound, RoundOut.isAborted]
    · cases f1 <;> simp [runRound, RoundOut.isAborted]
  · intro h1 h2
    obtain ⟨f1, f2, g1, g2, race⟩ := env
    subst h1
    subst h2
    cases race with
    | raceTimeout => simp [runRound, RoundOut.isAborted]
    | claim isP1 ans =>
        cases ans with
        | none => simp [runRound, RoundOut.isAborted, handlePlayerAnswer]
        | some a =>
            cases h : (a == q.correctAnswer) <;>
              simp [runRound, RoundOut.isAborted, handlePlayerAnswer, h]
  · intro senv hc h1
    simp [runSession, hc, h1]
  · intro senv hc h1 h2
    simp [runSession, hc, h1, h2]

/-- Witness for C8 amended: a failed question write aborts the round; a
round with failed answer-rights-granted write but successful question
writes does not abort. -/
theorem claim8_failure_policy_witness :
    (runRound "alice" "bob" qA 0 0
      ⟨true, false, false, false, RoundRace.raceTimeout⟩).isAborted = true
    ∧ (runRound "alice" "bob" qA 0 0
      ⟨false, false, true, false, RoundRace.claim true (some "a1")⟩).isAborted
        = false :=
  ⟨(claim8_failure_policy "alice" "bob" qA 0 0
      ⟨true, false, false, false, RoundRace.raceTimeout⟩).1 (Or.inl rfl),
    (claim8_failure_policy "alice" "bob" qA 0 0
      ⟨false, false, true, false, RoundRace.claim true (some "a1")⟩).2.1 rfl rfl⟩

/-- Claim C9: in a round whose race was claimed but the 5-second answer
deadline elapsed with no payload from the winner (including a failed
read), the answer is treated as incorrect with the synthetic time-is-up
marker: both sides are sent the negative answer_result carrying the
marker string and the correct answer, no score is incremented, and no
score_update is broadcast.  (That the answer is awaited from the winning
endpoint only is structural in the model: `handlePlayerAnswer` consumes
the winner-side oracle alone.) -/
theorem claim9_answer_deadline (p1 p2 : String) (q : Question) (s1 s2 : Nat)
    (env : RoundEnv) (isP1 : Bool)
    (hr : env.race = RoundRace.claim isP1 none)
    (h1 : env.qFail1 = false) (h2 : env.qFail2 = false) :
    ∃ l, runRound p1 p2 q s1 s2 env = RoundOut.completed l
      ∧ Msg.answerResult false "時間切れ" q.correctAnswer ∈ l.msgs1.map Prod.fst
      ∧ Msg.answerResult false "時間切れ" q.correctAnswer ∈ l.msgs2.map Prod.fst
      ∧ l.inc1 = false ∧ l.inc2 = false
      ∧ ((l.msgs1.map Prod.fst).any Msg.isScoreUpdate) = false
      ∧ ((l.msgs2.map Prod.fst).any Msg.isScoreUpdate) = false := by
  obtain ⟨f1, f2, g1, g2, race⟩ := env
  dsimp only at hr h1 h2
  subst h1
  subst h2
  subst hr
  refine ⟨_, rfl, ?_, ?_, rfl, rfl, ?_, ?_⟩ <;>
    simp [runRound, handlePlayerAnswer, Msg.isScoreUpdate]

/-- Witness for C9 at a concrete round. -/
theorem claim9_answer_deadline_witness :
    ∃ l, runRound "alice" "bob" qA 0 0
        ⟨false, false, false, false, RoundRace.claim true none⟩
        = RoundOut.completed l
      ∧ Msg.answerResult false "時間切れ" qA.correctAnswer ∈ l.msgs1.map Prod.fst
      ∧ Msg.answerResult false "時間切れ" qA.correctAnswer ∈ l.msgs2.map Prod.fst
      ∧ l.inc1 = false ∧ l.inc2 = false
      ∧ ((l.msgs1.map Prod.fst).any Msg.isScoreUpdate) = false
      ∧ ((l.msgs2.map Prod.fst).any Msg.isScoreUpdate) = false :=
  claim9_answer_deadline "alice" "bob" qA 0 0
    ⟨false, false, false, false, RoundRace.claim true none⟩ true rfl rfl rfl

/-- The initial race state satisfies the race invariant. -/
theorem raceInit_inv (pidA pidB : String) (inA inB : List ClientMsg) :
    RaceInv pidA pidB (raceInit inA inB) := by
  refine ⟨rfl, ?_, ?_, ?_, ?_, ?_, ?_, ?_⟩ <;> simp [raceInit, gotList]

/-- Every scheduler step preserves the race invariant. -/
theorem raceStep_inv (pidA pidB : String) (h : pidA ≠ pidB) (s : RaceSt)
    (e : Evt) (hs : RaceInv pidA pidB s) :
    RaceInv pidA pidB (raceStep pidA pidB s e) := by
  obtain ⟨c1, c2, c3, c4, c5, c6, c7, c8⟩ := hs
  cases e with
  | stepA =>
      by_cases hd : s.doneA
      · simp only [raceStep, hd, if_true]
        exact ⟨c1, c2, c3, c4, c5, c6, c7, c8⟩
      · have hd' : s.doneA = false := by simpa using hd
        cases hin : s.inA with
        | nil =>
            simp only [raceStep, hd', Bool.false_eq_true, if_false, hin]
            exact ⟨c1, c2, c3, c4, c5, c6, c7, c8⟩
        | cons m rest =>
            cases m with
            | other =>
                simp only [raceStep, hd', Bool.false_eq_true, if_false, hin]
                exact ⟨c1, c2, fun _ => c3 hd', c4, c5, c6, c7, c8⟩
            | recvErr =>
                simp only [raceStep, hd', Bool.false_eq_true, if_false, hin]
                exact ⟨c1, c2, by simp, c4, c5, c6, c7, c8⟩
            | answerRequest =>
                have hnotA : pidA ∉ s.claims := c3 hd'
                cases hslot : s.slot with
                | none =>
                    simp only [raceStep, hd', Bool.false_eq_true, if_false, hin,
                      hslot]
                    have hc1' : s.claims = gotList s.got := by
                      simpa [hslot] using c1
                    refine ⟨?_, ?_, ?_, ?_, ?_, ?_, ?_, ?_⟩
                    · simp only []
                      rw [hc1']
                      simp
                    · intro x hx
                      rcases List.mem_append.mp hx with hx | hx
                      · exact c2 x hx
                      · exact Or.inl (List.mem_singleton.mp hx)
                    · simp
                    · intro hB
                      simp only [List.mem_append, List.mem_singleton]
                      rintro (hmem | rfl)
                      · exact c4 hB hmem
                      · exact h rfl
                    · have hz : s.claims.count pidA = 0 :=
                        List.count_eq_zero.mpr hnotA
                      simp [List.count_append, hz]
                    · have hz : List.count pidB [pidA] = 0 := by
                        simp [List.count_singleton', h]
                      simp only [List.count_append, hz, Nat.add_zero]
                      exact c6
                    · intro hden
                      exact List.mem_append_left _ (c7 hden)
                    · intro _
                      exact List.mem_append_right _ (List.mem_singleton.mpr rfl)
                | some w =>
                    simp only [raceStep, hd', Bool.false_eq_true, if_false, hin,
                      hslot]
                    have hw : w ∈ s.claims := by
                      rw [c1, hslot]
                      simp
                    have hwB : w = pidB := by
                      rcases c2 w hw with rfl | rfl
                      · exact absurd hw hnotA
                      · rfl
                    refine ⟨by simpa [hslot] using c1, c2, fun _ => c3 hd',
                      c4, c5, c6, ?_, c8⟩
                    · intro _
                      rw [← hwB]
                      exact hw
  | stepB =>
      by_cases hd : s.doneB
      · simp only [raceStep, hd, if_true]
        exact ⟨c1, c2, c3, c4, c5, c6, c7, c8⟩
      · have hd' : s.doneB = false := by simpa using hd
        cases hin : s.inB with
        | nil =>
            simp only [raceStep, hd', Bool.false_eq_true, if_false, hin]
            exact ⟨c1, c2, c3, c4, c5, c6, c7, c8⟩
        | cons m rest =>
            cases m with
            | other =>
                simp only [raceStep, hd', Bool.false_eq_true, if_false, hin]
                exact ⟨c1, c2, c3, fun _ => c4 hd', c5, c6, c7, c8⟩
            | recvErr =>
                simp only [raceStep, hd', Bool.false_eq_true, if_false, hin]
                exact ⟨c1, c2, c3, by simp, c5, c6, c7, c8⟩
            | answerRequest =>
                have hnotB : pidB ∉ s.claims := c4 hd'
                cases hslot : s.slot with
                | none =>
                    simp only [raceStep, hd', Bool.false_eq_true, if_false, hin,
                      hslot]
                    have hc1' : s.claims = gotList s.got := by
                      simpa [hslot] using c1
                    refine ⟨?_, ?_, ?_, ?_, ?_, ?_, ?_, ?_⟩
                    · simp only []
                      rw [hc1']
                      simp
                    · intro x hx
                      rcases List.mem_append.mp hx with hx | hx
                      · exact c2 x hx
                      · exact Or.inr (List.mem_singleton.mp hx)
                    · intro hA
                      simp only [List.mem_append, List.mem_singleton]
                      rintro (hmem | rfl)
                      · exact c3 hA hmem
                      · exact h rfl
                    · simp
                    · have hz : List.count pidA [pidB] = 0 := by
                        simp [List.count_singleton']
                        intro he
                        exact absurd he.symm h
                      simp only [List.count_append, hz, Nat.add_zero]
                      exact c5
                    · have hz : s.claims.count pidB = 0 :=
                        List.count_eq_zero.mpr hnotB
                      simp [List.count_append, hz]
                    · intro _
                      exact List.mem_append_right _ (List.mem_singleton.mpr rfl)
                    · intro hden
                      exact List.mem_append_left _ (c8 hden)
                | some w =>
                    simp only [raceStep, hd', Bool.false_eq_true, if_false, hin,
                      hslot]
                    have hw : w ∈ s.claims := by
                      rw [c1, hslot]
                      simp
                    have hwA : w = pidA := by
                      rcases c2 w hw with rfl | rfl
                      · rfl
                      · exact absurd hw hnotB
                    refine ⟨by simpa [hslot] using c1, c2, c3, fun _ => c4 hd',
                      c5, c6, c7, ?_⟩
                    · intro _
                      rw [← hwA]
                      exact hw
  | mainRecv =>
      cases hgot : s.got with
      | some g =>
          simp only [raceStep, hgot]
          exact ⟨c1, c2, c3, c4, c5, c6, c7, c8⟩
      | none =>
          cases hslot : s.slot with
          | none =>
              simp only [raceStep, hgot, hslot]
              exact ⟨c1, c2, c3, c4, c5, c6, c7, c8⟩
          | some w =>
              simp only [raceStep, hgot, hslot]
              have hc1' : s.claims = [w] := by
                simpa [hgot, hslot, gotList] using c1
              refine ⟨?_, c2, c3, c4, c5, c6, c7, c8⟩
              simp [gotList, hc1']
  | mainTimeout =>
      cases hgot : s.got with
      | some g =>
          simp only [raceStep, hgot]
          exact ⟨c1, c2, c3, c4, c5, c6, c7, c8⟩
      | none =>
          simp only [raceStep, hgot]
          refine ⟨?_, c2, c3, c4, c5, c6, c7, c8⟩
          have hc1' : s.claims = s.slot.toList := by
            simpa [hgot, gotList] using c1
          simp [gotList, hc1']

/-- The race invariant holds after any schedule. -/
theorem raceRun_inv (pidA pidB : String) (h : pidA ≠ pidB)
    (inA inB : List ClientMsg) (sched : List Evt) :
    RaceInv pidA pidB (raceRun pidA pidB inA inB sched) := by
  rw [raceRun]
  have hgen : ∀ (es : List Evt) (s : RaceSt), RaceInv pidA pidB s →
      RaceInv pidA pidB (es.foldl (raceStep pidA pidB) s) := by
    intro es
    induction es with
    | nil => intro s hs; simpa using hs
    | cons e tl ih =>
        intro s hs
        rw [List.foldl_cons]
        exact ih (raceStep pidA pidB s e) (raceStep_inv pidA pidB h s e hs)
  exact hgen sched (raceInit inA inB) (raceInit_inv pidA pidB inA inB)

/-- Every possible `runRound` outcome obeys the grant discipline. -/
theorem runRound_grantProp (p1 p2 : String) (q : Question) (s1 s2 : Nat)
    (env : RoundEnv) : grantProp p1 p2 ((runRound p1 p2 q s1 s2 env).log) := by
  obtain ⟨f1, f2, g1, g2, race⟩ := env
  cases f1 with
  | true =>
      simp [runRound, RoundOut.log, grantProp, Msg.isGrantMsg]
  | false =>
      cases f2 with
      | true =>
          simp [runRound, RoundOut.log, grantProp, Msg.isGrantMsg]
      | false =>
          cases race with
          | raceTimeout =>
              simp [runRound, RoundOut.log, grantProp, Msg.isGrantMsg]
          | claim isP1 ans =>
              cases ans with
              | none =>
                  cases isP1 <;>
                    simp [runRound, RoundOut.log, grantProp, Msg.isGrantMsg,
                      handlePlayerAnswer, List.countP_cons]
              | some a =>
                  cases h : (a == q.correctAnswer) <;> cases isP1 <;>
                    simp [runRound, RoundOut.log, grantProp, Msg.isGrantMsg,
                      handlePlayerAnswer, h, List.countP_cons]

/-- Claim C1 amended: per round the arbiter yields at most one right
holder — under every interleaving of the two listener goroutines with
the orchestrator, the orchestrator receives at most one winner, namely
the first player whose channel send succeeded (one of the two room
players); each player claims at most once; and a player who is sent
answer_denied requested while the slot was held, which implies the other
player had already claimed (a requester arriving after the orchestrator
drained the slot, or after the window closed, gets no message).  The
single granted notification, however, is then broadcast to both
endpoints: within every session each round carries at most one
answer_rights_granted per side and it names one of the two players. -/
theorem claim1_single_winner (pidA pidB : String) (h : pidA ≠ pidB)
    (inA inB : List ClientMsg) (sched : List Evt) :
    (∀ w, (raceRun pidA pidB inA inB sched).got = some (some w) →
        (raceRun pidA pidB inA inB sched).claims.head? = some w
        ∧ (w = pidA ∨ w = pidB))
    ∧ (raceRun pidA pidB inA inB sched).claims.count pidA ≤ 1
    ∧ (raceRun pidA pidB inA inB sched).claims.count pidB ≤ 1
    ∧ (1 ≤ (raceRun pidA pidB inA inB sched).deniedA →
        pidB ∈ (raceRun pidA pidB inA inB sched).claims)
    ∧ (1 ≤ (raceRun pidA pidB inA inB sched).deniedB →
        pidA ∈ (raceRun pidA pidB inA inB sched).claims)
    ∧ (∀ env : SessionEnv, ∀ l ∈ (runSession pidA pidB env).rounds,
        grantProp pidA pidB l) := by
  obtain ⟨c1, c2, c3, c4, c5, c6, c7, c8⟩ :=
    raceRun_inv pidA pidB h inA inB sched
  refine ⟨?_, c5, c6, c7, c8, ?_⟩
  · intro w hw
    have hcl : (raceRun pidA pidB inA inB sched).claims =
        [w] ++ (raceRun pidA pidB inA inB sched).slot.toList := by
      rw [c1, hw]
      rfl
    constructor
    · rw [hcl]
      rfl
    · exact c2 w (by rw [hcl]; exact List.mem_append_left _ (by simp))
  · exact fun env =>
      runSession_rounds_sat pidA pidB (grantProp pidA pidB)
        (runRound_grantProp pidA pidB) env

/-- Witness for C1 amended: player A requests first, player B second; A
is the sole successful claimant and winner, B is denied once. -/
theorem claim1_single_winner_witness :
    ((raceRun "alice" "bob" [ClientMsg.answerRequest] [ClientMsg.answerRequest]
        [Evt.stepA, Evt.stepB, Evt.mainRecv]).claims.head? = some "alice"
      ∧ ("alice" = "alice" ∨ "alice" = "bob"))
    ∧ "alice" ∈ (raceRun "alice" "bob" [ClientMsg.answerRequest]
        [ClientMsg.answerRequest] [Evt.stepA, Evt.stepB, Evt.mainRecv]).claims := by
  have hc := claim1_single_winner "alice" "bob" (by decide)
    [ClientMsg.answerRequest] [ClientMsg.answerRequest]
    [Evt.stepA, Evt.stepB, Evt.mainRecv]
  exact ⟨hc.1 "alice" (by decide), hc.2.2.2.2.1 (by decide)⟩
